import Mathlib

/-!
Verification development for the Estrannaise pharmacokinetic core
(`custom_components/estrannaise/const.py` and the scaling-factor routine of
`custom_components/estrannaise/database.py`).

The Python floats are modelled as real numbers; `math.exp` is `Real.exp`.
Python's `round` (to integer) is modelled by Mathlib's `round : ℝ → ℤ`
(round-half-up; the two differ only on exact ties, which none of the
statements below touch).  The `OverflowError` branch of the source cannot
fire over ℝ (reals do not overflow); the `ZeroDivisionError` branches are
modelled by explicit checks on the exact denominators the source divides by.
Dictionaries keyed by strings become `String → Option _` lookup functions.
-/

noncomputable section

namespace Estrannaise

open Real Filter Topology

/-- PK parameter table `PK_PARAMETERS` from `const.py`: model key ↦ `(d, k1, k2, k3)`. -/
def PK_PARAMETERS (model : String) : Option (ℝ × ℝ × ℝ × ℝ) :=
  if model = "EB im" then some (1893.1, 0.67, 61.5, 4.34)
  else if model = "EV im" then some (478.0, 0.236, 4.85, 1.24)
  else if model = "EEn im" then some (191.4, 0.119, 0.601, 0.402)
  else if model = "EC im" then some (246.0, 0.0825, 3.57, 0.669)
  else if model = "EUn im" then some (471.5, 0.01729, 6.528, 2.285)
  else if model = "EUn casubq" then some (16.15, 0.046, 0.022, 0.101)
  else if model = "patch tw" then some (16.792, 0.283, 5.592, 4.3)
  else if model = "patch ow" then some (59.481, 0.107, 7.842, 5.193)
  else if model = "E oral" then some (51.5, 100.0, 8.88, 1.032)
  else none

/-- Patch wear duration table `PATCH_WEAR_DAYS` from `const.py`. -/
def PATCH_WEAR_DAYS (model : String) : Option ℝ :=
  if model = "patch tw" then some 3.5
  else if model = "patch ow" then some 7.0
  else none

/-- Recommended interval table `SUGGESTED_INTERVALS` from `const.py`. -/
def SUGGESTED_INTERVALS (model : String) : Option (List ℝ) :=
  if model = "EB im" then some [2.0, 3.0]
  else if model = "EV im" then some [3.5, 5.0, 7.0]
  else if model = "EEn im" then some [7.0, 10.0]
  else if model = "EC im" then some [7.0]
  else if model = "EUn im" then some [14.0, 28.0]
  else if model = "EUn casubq" then some [14.0, 28.0]
  else if model = "patch tw" then some [3.5]
  else if model = "patch ow" then some [7.0]
  else if model = "E oral" then some [1.0]
  else none

/-- `ESTER_METHOD_TO_MODEL` from `const.py`: (ester, method) ↦ model key. -/
def ESTER_METHOD_TO_MODEL (ester method : String) : Option String :=
  if ester = "EB" ∧ method = "im" then some "EB im"
  else if ester = "EV" ∧ method = "im" then some "EV im"
  else if ester = "EEn" ∧ method = "im" then some "EEn im"
  else if ester = "EC" ∧ method = "im" then some "EC im"
  else if ester = "EUn" ∧ method = "im" then some "EUn im"
  else if ester = "EB" ∧ method = "subq" then some "EB im"
  else if ester = "EV" ∧ method = "subq" then some "EV im"
  else if ester = "EEn" ∧ method = "subq" then some "EEn im"
  else if ester = "EC" ∧ method = "subq" then some "EC im"
  else if ester = "EUn" ∧ method = "subq" then some "EUn casubq"
  else if ester = "E" ∧ method = "patch" then some "patch"
  else if ester = "E" ∧ method = "oral" then some "E oral"
  else none

/-- `TARGET_TROUGH` from `const.py`. -/
def TARGET_TROUGH (target_type : String) : Option ℝ :=
  if target_type = "target_range" then some 200.0
  else if target_type = "menstrual_range" then some 100.0
  else none

/-- The mean menstrual-cycle estradiol curve `MENSTRUAL_CYCLE_DATA["E2"]`
from `const.py` (30 samples; the cycle-fit solver takes the first 28). -/
def MENSTRUAL_E2 : List ℝ :=
  [37.99, 40.59, 37.49, 34.99, 35.49, 39.54, 41.99, 44.34, 53.43,
   58.58, 71.43, 98.92, 132.31, 177.35, 255.88, 182.80, 85.23,
   70.98, 87.97, 109.92, 122.77, 132.56, 150.30, 133.81, 137.16,
   134.96, 92.73, 85.68, 46.34, 41.19]

/-- `e2_curve_3c` from `const.py`: three-compartment impulse response for one
injection dose, branching on coincidence of the rate constants exactly as the
source does. -/
def e2_curve_3c (t dose d k1 k2 k3 : ℝ) : ℝ :=
  if t < 0 then 0
  else if dose ≤ 0 ∨ d ≤ 0 then 0
  else if k1 = k2 ∧ k2 = k3 then
    dose * d * k1 * k1 * t * t * Real.exp (-k1 * t) / 2
  else if k1 = k2 ∧ k2 ≠ k3 then
    dose * d * k1 * k1
      * (Real.exp (-k3 * t) - Real.exp (-k1 * t) * (1 + (k1 - k3) * t))
      / (k1 - k3) / (k1 - k3)
  else if k1 ≠ k2 ∧ k1 = k3 then
    dose * d * k1 * k2
      * (Real.exp (-k2 * t) - Real.exp (-k1 * t) * (1 + (k1 - k2) * t))
      / (k1 - k2) / (k1 - k2)
  else if k1 ≠ k2 ∧ k2 = k3 then
    dose * d * k1 * k2
      * (Real.exp (-k1 * t) - Real.exp (-k2 * t) * (1 - (k1 - k2) * t))
      / (k1 - k2) / (k1 - k2)
  else
    dose * d * k1 * k2 *
      (Real.exp (-k1 * t) / (k1 - k2) / (k1 - k3)
        - Real.exp (-k2 * t) / (k1 - k2) / (k2 - k3)
        + Real.exp (-k3 * t) / (k1 - k3) / (k2 - k3))

/-- `_es_single_dose_3c` from `const.py`: secondary-compartment level used at
patch removal. -/
def _es_single_dose_3c (t dose d k1 k2 : ℝ) : ℝ :=
  if t < 0 then 0
  else if dose ≤ 0 ∨ d ≤ 0 then 0
  else if k1 = k2 then dose * d * k1 * t * Real.exp (-k1 * t)
  else dose * d * k1 / (k1 - k2) * (Real.exp (-k2 * t) - Real.exp (-k1 * t))

/-- The post-removal block of `e2_patch_3c` (the source after
`t_after = t - w`): free decay of the residual secondary and tertiary
compartment levels, as a function of the elapsed time since removal. -/
def e2_patch_post_removal (dose d k1 k2 k3 w t_after : ℝ) : ℝ :=
  let es_w := _es_single_dose_3c w dose d k1 k2
  let e2_w := e2_curve_3c w dose d k1 k2 k3
  (if 0 < es_w then
      (if k2 = k3 then es_w * k2 * t_after * Real.exp (-k2 * t_after)
       else es_w * k2 / (k2 - k3)
              * (Real.exp (-k3 * t_after) - Real.exp (-k2 * t_after)))
   else 0)
  + (if 0 < e2_w then e2_w * Real.exp (-k3 * t_after) else 0)

/-- `e2_patch_3c` from `const.py`: while worn (`t ≤ w`) delegates to the bolus
form; after removal evolves the residual compartment levels freely. -/
def e2_patch_3c (t dose d k1 k2 k3 w : ℝ) : ℝ :=
  if t < 0 then 0
  else if t ≤ w then e2_curve_3c t dose d k1 k2 k3
  else e2_patch_post_removal dose d k1 k2 k3 w (t - w)

/-- A dose record as consumed by `compute_e2_at_time` (`timestamp` in seconds
since epoch, `model` the PK model key, `dose_mg` the amount). -/
structure DoseRec where
  timestamp : ℝ
  model : String
  dose_mg : ℝ

/-- The contribution of a single dose record inside the loop of
`compute_e2_at_time` in `const.py`: unknown model keys contribute nothing,
patch models dispatch to `e2_patch_3c`, others to `e2_curve_3c`. -/
def doseContribution (t_now : ℝ) (rec : DoseRec) : ℝ :=
  match PK_PARAMETERS rec.model with
  | none => 0
  | some (d, k1, k2, k3) =>
    let t_days := (t_now - rec.timestamp) / 86400
    match PATCH_WEAR_DAYS rec.model with
    | some w => e2_patch_3c t_days rec.dose_mg d k1 k2 k3 w
    | none => e2_curve_3c t_days rec.dose_mg d k1 k2 k3

/-- `compute_e2_at_time` from `const.py`: sum of all record contributions
times the calibration scaling factor. -/
def compute_e2_at_time (t_now : ℝ) (doses : List DoseRec) (scaling_factor : ℝ) : ℝ :=
  (doses.foldl (fun total rec => total + doseContribution t_now rec) 0) * scaling_factor

/-- A blood test record as consumed by `compute_scaling_factor` in
`database.py`. -/
structure BloodTest where
  timestamp : ℝ
  level_pg_ml : ℝ

/-- The loop body of `compute_scaling_factor` in `database.py`, accumulating
`(weighted_sum, weight_total, ratios_and_weights)` over one test. -/
def csfStep (now : ℝ) (all_doses : List DoseRec) (decay_lambda : ℝ)
    (acc : ℝ × ℝ × List (ℝ × ℝ)) (test : BloodTest) : ℝ × ℝ × List (ℝ × ℝ) :=
  let predicted := compute_e2_at_time test.timestamp all_doses 1.0
  if predicted < 1.0 then acc
  else
    let ratio := test.level_pg_ml / predicted
    let age_days := (now - test.timestamp) / 86400
    let weight := Real.exp (-decay_lambda * age_days)
    (acc.1 + ratio * weight, acc.2.1 + weight, acc.2.2 ++ [(ratio, weight)])

/-- The computational core of `compute_scaling_factor` from `database.py`
(the database fetch is replaced by the fetched list `tests`): recency-weighted
mean and variance of measured/predicted ratios, with tests predicting below
1.0 excluded and the factor clamped to `[0, 2]`. -/
def compute_scaling_factor (now : ℝ) (tests : List BloodTest)
    (all_doses : List DoseRec) (decay_lambda : ℝ) : ℝ × ℝ :=
  match tests with
  | [] => (1.0, 0.0)
  | _ =>
    let acc := tests.foldl (csfStep now all_doses decay_lambda) (0, 0, [])
    let weighted_sum := acc.1
    let weight_total := acc.2.1
    if weight_total ≤ 0 then (1.0, 0.0)
    else
      let factor := weighted_sum / weight_total
      let var_sum := acc.2.2.foldl
        (fun vs rw => vs + rw.2 * (rw.1 - factor) ^ 2) 0
      let variance := var_sum / weight_total
      (max 0 (min 2 factor), variance)

/-- Replace a dose record's amount by `c` times it (used to state the
superposition/linearity claim about `compute_e2_at_time`). -/
def scaleDose (c : ℝ) (r : DoseRec) : DoseRec :=
  { r with dose_mg := c * r.dose_mg }

/-- The bracket of the all-distinct branch of `e2_curve_3c`, with the double
divisions collected: it is the second divided difference of `x ↦ exp (-x t)`
at the three rate constants. -/
def sum3exp (t a b c : ℝ) : ℝ :=
  Real.exp (-a * t) / ((a - b) * (a - c))
    - Real.exp (-b * t) / ((a - b) * (b - c))
    + Real.exp (-c * t) / ((a - c) * (b - c))

/-- Python's integer-valued `round(x)` modelled by Mathlib's `round : ℝ → ℤ`
(round-half-up; it differs from Python's float rounding only on exact ties,
which none of the statements below touch). -/
def pyRound (x : ℝ) : ℝ := ((round x : ℤ) : ℝ)

/-- The source's `round(dose * 2) / 2` (nearest 0.5-unit dose). -/
def roundHalfUnit (x : ℝ) : ℝ := pyRound (x * 2) / 2

/-- Python `round(v, 1)`. -/
def pyRound1 (x : ℝ) : ℝ := pyRound (x * 10) / 10

/-- Python `round(v, 2)`. -/
def pyRound2 (x : ℝ) : ℝ := pyRound (x * 100) / 100

/-- The trough-per-unit-dose accumulation loop `for n in range(1, 60)` of
`compute_suggested_regimen` in `const.py`, for one candidate interval. -/
def troughPerMg (model_key : String) (d k1 k2 k3 interval : ℝ) : ℝ :=
  (List.range' 1 59).foldl
    (fun acc n =>
      acc + (match PATCH_WEAR_DAYS model_key with
        | some w => e2_patch_3c ((n : ℝ) * interval) 1.0 d k1 k2 k3 w
        | none => e2_curve_3c ((n : ℝ) * interval) 1.0 d k1 k2 k3)) 0

/-- The first-feasible-interval loop of `compute_suggested_regimen` in
`const.py`: skip intervals implying more than 4 doses/week, skip intervals
with non-positive trough-per-mg, and return the rounded clamped dose for the
first remaining interval. -/
def pickInterval (model_key : String) (d k1 k2 k3 target_trough : ℝ) :
    List ℝ → Option (ℝ × ℝ)
  | [] => none
  | interval :: rest =>
    if 7.0 / interval > 4.0 then
      pickInterval model_key d k1 k2 k3 target_trough rest
    else
      let trough_per_mg := troughPerMg model_key d k1 k2 k3 interval
      if trough_per_mg ≤ 0 then
        pickInterval model_key d k1 k2 k3 target_trough rest
      else
        let dose := roundHalfUnit (target_trough / trough_per_mg)
        some (max 0.5 (min 20.0 dose), interval)

/-- `_ss_unit_3c` from `const.py`: steady-state level at time `t_mod` within
the interval from 1 mg repeated every `T` days (general distinct-roots form).
The `ZeroDivisionError` branch of the source's `try` is modelled by an
explicit check on the exact denominators the source divides by. -/
def _ss_unit_3c (t_mod T d k1 k2 k3 : ℝ) : ℝ :=
  if T ≤ 0 ∨ d ≤ 0 then 0
  else if 1 - Real.exp (-k1 * T) = 0 ∨ 1 - Real.exp (-k2 * T) = 0
      ∨ 1 - Real.exp (-k3 * T) = 0 ∨ k1 - k2 = 0 ∨ k1 - k3 = 0 ∨ k2 - k3 = 0 then 0
  else
    max 0 (d * k1 * k2 *
      (Real.exp (-k1 * t_mod) / (1 - Real.exp (-k1 * T)) / (k1 - k2) / (k1 - k3)
        - Real.exp (-k2 * t_mod) / (1 - Real.exp (-k2 * T)) / (k1 - k2) / (k2 - k3)
        + Real.exp (-k3 * t_mod) / (1 - Real.exp (-k3 * T)) / (k1 - k3) / (k2 - k3)))

/-- Python float `%` with the positive modulus used by the basis vectors:
`a % b = a - b * floor(a / b)`. -/
def pymod (a b : ℝ) : ℝ := a - b * ((⌊a / b⌋ : ℤ) : ℝ)

/-- `_compute_basis_vector` from `const.py`: steady-state level per cycle day
from a 1 mg schedule with the given interval and phase. -/
def _compute_basis_vector (interval phase d k1 k2 k3 : ℝ) (n_days : ℕ) : List ℝ :=
  (List.range n_days).map
    (fun day => _ss_unit_3c (pymod ((day : ℝ) - phase) interval) interval d k1 k2 k3)

/-- Entry `M[i][j]` of a row-major matrix, 0 out of range. -/
def getM (M : List (List ℝ)) (i j : ℕ) : ℝ := (M.getD i []).getD j 0

/-- The partial-pivot search of `_gauss_solve` for one column: the row index
in `[col, n)` carrying the largest absolute entry of that column, with that
absolute value. -/
def pivotRow (M : List (List ℝ)) (n col : ℕ) : ℕ × ℝ :=
  (List.range' (col + 1) (n - (col + 1))).foldl
    (fun acc row => if |getM M row col| > acc.2 then (row, |getM M row col|) else acc)
    (col, |getM M col col|)

/-- Swap two rows of a matrix. -/
def swapRows (M : List (List ℝ)) (i j : ℕ) : List (List ℝ) :=
  let ri := M.getD i []
  let rj := M.getD j []
  (M.set i rj).set j ri

/-- The elimination loop of `_gauss_solve` below one pivot column. -/
def elimBelow (M : List (List ℝ)) (n col : ℕ) : List (List ℝ) :=
  (List.range' (col + 1) (n - (col + 1))).foldl
    (fun M row =>
      let factor := getM M row col / getM M col col
      M.set row ((List.range' col (n + 1 - col)).foldl
        (fun r j => r.set j (r.getD j 0 - factor * getM M col j)) (M.getD row [])))
    M

/-- The forward-elimination phase of `_gauss_solve`, over the given columns. -/
def gaussForwardAux (n : ℕ) : List ℕ → List (List ℝ) → Option (List (List ℝ))
  | [], M => some M
  | col :: rest, M =>
    let p := pivotRow M n col
    if p.2 < 1e-14 then none
    else
      let M1 := if p.1 ≠ col then swapRows M col p.1 else M
      gaussForwardAux n rest (elimBelow M1 n col)

/-- The back-substitution phase of `_gauss_solve`, over the given rows
(visited from last to first). -/
def gaussBackAux (M : List (List ℝ)) (n : ℕ) : List ℕ → List ℝ → Option (List ℝ)
  | [], x => some x
  | i :: rest, x =>
    if |getM M i i| < 1e-14 then none
    else
      let xi := (List.range' (i + 1) (n - (i + 1))).foldl
        (fun v j => v - getM M i j * x.getD j 0) (getM M i n)
      gaussBackAux M n rest (x.set i (xi / getM M i i))

/-- `_gauss_solve` from `const.py`: Gaussian elimination with partial
pivoting; `none` when a pivot magnitude falls below `1e-14`. -/
def _gauss_solve (A : List (List ℝ)) (b : List ℝ) : Option (List ℝ) :=
  let n := b.length
  if n = 0 then some []
  else
    let M := (A.zip b).map (fun rb => rb.1 ++ [rb.2])
    match gaussForwardAux n (List.range n) M with
    | none => none
    | some M2 => gaussBackAux M2 n (List.range n).reverse (List.replicate n 0)

/-- `sum(a[i] * b[i] for i in range(n))`. -/
def dotN (a b : List ℝ) (n : ℕ) : ℝ :=
  (List.range n).foldl (fun acc i => acc + a.getD i 0 * b.getD i 0) 0

/-- One update of the boundary-interpolation loop of `_nnls`
(`x[j] += alpha * (s_free[ii] - x[j])`, then deactivate and zero entries at
or below `1e-12`). -/
def nnlsAlphaStep (alpha : ℝ) (acc : List ℝ × List Bool) (p : ℕ × ℝ) :
    List ℝ × List Bool :=
  let xj := acc.1.getD p.1 0
  let newv := xj + alpha * (p.2 - xj)
  if newv ≤ 1e-12 then (acc.1.set p.1 0, acc.2.set p.1 false)
  else (acc.1.set p.1 newv, acc.2)

/-- The inner loop of `_nnls` from `const.py`: solve the unconstrained
least-squares subproblem on the free set and interpolate back to the
boundary while any free variable would go negative.  `fuel` models the
source's `for _inner in range(3 * k + 1)` bound. -/
def nnlsInner (columns : List (List ℝ)) (b : List ℝ) (n k : ℕ) :
    ℕ → List ℝ → List Bool → List ℝ × List Bool
  | 0, x, free => (x, free)
  | fuel + 1, x, free =>
    let free_idx := (List.range k).filter (fun j => free.getD j false)
    let AtA := free_idx.map (fun ci => free_idx.map (fun cj =>
        dotN (columns.getD ci []) (columns.getD cj []) n))
    let Atb := free_idx.map (fun ci => dotN (columns.getD ci []) b n)
    match _gauss_solve AtA Atb with
    | none => (x, free)
    | some s_free =>
      if ∀ v ∈ s_free, 0 ≤ v then
        ((free_idx.zip s_free).foldl (fun xa p => xa.set p.1 p.2) x, free)
      else
        let alpha := (free_idx.zip s_free).foldl
          (fun a p =>
            if p.2 ≤ 0 ∧ 0 < x.getD p.1 0 then
              min a (x.getD p.1 0 / (x.getD p.1 0 - p.2))
            else a) 1.0
        let xf := (free_idx.zip s_free).foldl (nnlsAlphaStep alpha) (x, free)
        nnlsInner columns b n k fuel xf.1 xf.2

/-- The outer loop of `_nnls` from `const.py`: compute the gradient of the
residual, free the inactive variable with the most positive gradient (must
exceed `1e-10`), and run the inner loop.  `fuel` models the source's
`for _outer in range(3 * k + 1)` bound. -/
def nnlsOuter (columns : List (List ℝ)) (b : List ℝ) (n k : ℕ) :
    ℕ → List ℝ → List Bool → List ℝ
  | 0, x, _ => x
  | fuel + 1, x, free =>
    let r := (List.range k).foldl
      (fun r j =>
        if x.getD j 0 ≠ 0 then
          (List.range n).foldl
            (fun r2 i =>
              r2.set i (r2.getD i 0 - (columns.getD j []).getD i 0 * x.getD j 0)) r
        else r) b
    let w := (List.range k).map (fun j => dotN (columns.getD j []) r n)
    let best := (List.range k).foldl
      (fun (acc : Option ℕ × ℝ) j =>
        if free.getD j false = false ∧ acc.2 < w.getD j 0 then (some j, w.getD j 0)
        else acc)
      (none, 1e-10)
    match best.1 with
    | none => x
    | some bj =>
      let inner := nnlsInner columns b n k (3 * k + 1) x (free.set bj true)
      nnlsOuter columns b n k fuel inner.1 inner.2

/-- `_nnls` from `const.py`: Lawson-Hanson active-set non-negative least
squares over the given column vectors. -/
def _nnls (columns : List (List ℝ)) (b : List ℝ) : List ℝ :=
  let n := b.length
  let k := columns.length
  if k = 0 then []
  else nnlsOuter columns b n k (3 * k + 1) (List.replicate k 0) (List.replicate k false)

/-- The fitted-curve accumulation of the greedy loop in
`compute_cycle_fit_regimen`: `fitted[i] = Σ_j x[j] * A_cols[j][i]`. -/
def fittedOf (A_cols : List (List ℝ)) (x : List ℝ) (n_days : ℕ) : List ℝ :=
  (List.range n_days).map
    (fun i => (x.zip A_cols).foldl (fun acc p => acc + p.1 * p.2.getD i 0) 0)

/-- Mean-square error between target and fitted over `n_days` samples. -/
def mseOf (target fitted : List ℝ) (n_days : ℕ) : ℝ :=
  ((List.range n_days).foldl
    (fun acc i => acc + (target.getD i 0 - fitted.getD i 0) ^ 2) 0) / n_days

/-- One greedy step of `compute_cycle_fit_regimen`: over every not-yet-
selected candidate, NNLS-refit selected-plus-candidate against the target and
keep the candidate with the smallest MSE, if any is below `prev_mse`. -/
def bestCandidate (candidates : List (ℝ × ℝ × List ℝ)) (target : List ℝ)
    (n_days : ℕ) (selected : List ℕ) (prev_mse : ℝ) : Option ℕ × ℝ :=
  (List.range candidates.length).foldl
    (fun (acc : Option ℕ × ℝ) ci =>
      if ci ∈ selected then acc
      else
        let A_cols := selected.map (fun si => (candidates.getD si (0, 0, [])).2.2)
          ++ [(candidates.getD ci (0, 0, [])).2.2]
        let x := _nnls A_cols target
        let fitted := fittedOf A_cols x n_days
        let mse := mseOf target fitted n_days
        if mse < acc.2 then (some ci, mse) else acc)
    (none, prev_mse)

/-- The greedy forward-selection loop of `compute_cycle_fit_regimen` in
`const.py`: stop when no candidate improves, or when the relative
improvement is under 1% after the first schedule, or after `max_schedules`
steps; otherwise accept the best candidate and its MSE. -/
def greedySelect (candidates : List (ℝ × ℝ × List ℝ)) (target : List ℝ)
    (n_days : ℕ) : ℕ → ℕ → List ℕ → ℝ → List ℕ × ℝ
  | 0, _, selected, prev_mse => (selected, prev_mse)
  | steps + 1, step, selected, prev_mse =>
    match bestCandidate candidates target n_days selected prev_mse with
    | (none, _) => (selected, prev_mse)
    | (some ci, best_mse) =>
      if 0 < step ∧ 0 < prev_mse ∧ (prev_mse - best_mse) / prev_mse < 0.01 then
        (selected, prev_mse)
      else
        greedySelect candidates target n_days steps (step + 1)
          (selected ++ [ci]) best_mse

/-- A periodic dosing schedule as returned by the solvers. -/
structure Schedule where
  dose_mg : ℝ
  interval_days : ℝ
  phase_days : ℝ
  model_key : String

/-- The result record of `compute_cycle_fit_regimen`. -/
structure CycleFitResult where
  schedules : List Schedule
  residual_rms : ℝ
  cycle_fit_curve : List ℝ

/-- The schedule-assembly loop of `compute_cycle_fit_regimen`: drop fitted
doses below 0.25, round the rest to the nearest 0.5 unit, clamp to
`[0.5, 20]`. -/
def cycleFitSchedules (model_key : String) (candidates : List (ℝ × ℝ × List ℝ))
    (selected : List ℕ) (final_x : List ℝ) : List Schedule :=
  (selected.zip final_x).foldr
    (fun p acc =>
      if p.2 < 0.25 then acc
      else
        let c := candidates.getD p.1 (0, 0, [])
        { dose_mg := max 0.5 (min 20.0 (roundHalfUnit p.2)),
          interval_days := c.1, phase_days := c.2.1,
          model_key := model_key } :: acc)
    []

/-- The rounded-dose fitted curve of `compute_cycle_fit_regimen`: basis
vectors recomputed from the model parameters, weighted by the rounded
doses. -/
def cycleFitCurve (d k1 k2 k3 : ℝ) (schedules : List Schedule) (n_days : ℕ) :
    List ℝ :=
  schedules.foldl
    (fun curve sch =>
      let bv := _compute_basis_vector sch.interval_days sch.phase_days d k1 k2 k3 n_days
      (List.range n_days).foldl
        (fun c i => c.set i (c.getD i 0 + sch.dose_mg * bv.getD i 0)) curve)
    (List.replicate n_days 0)

/-- The reported residual of `compute_cycle_fit_regimen`:
`round(sqrt(Σ (target_i - curve_i)² / n_days), 2)`. -/
def residualRmsOf (target curve : List ℝ) (n_days : ℕ) : ℝ :=
  pyRound2 (Real.sqrt (((List.range n_days).foldl
    (fun acc i => acc + (target.getD i 0 - curve.getD i 0) ^ 2) 0) / n_days))

/-- The final stage of `compute_cycle_fit_regimen` in `const.py` (after the
greedy selection): final NNLS on the selected columns, dose rounding and
filtering, rounded-dose curve and reported residual. -/
def cycleFitFinish (d k1 k2 k3 : ℝ) (model_key : String)
    (candidates : List (ℝ × ℝ × List ℝ)) (target : List ℝ) (n_days : ℕ)
    (selected : List ℕ) : Option CycleFitResult :=
  let A_cols := selected.map (fun si => (candidates.getD si (0, 0, [])).2.2)
  let final_x := _nnls A_cols target
  let schedules := cycleFitSchedules model_key candidates selected final_x
  match schedules with
  | [] => none
  | _ =>
    let curve := cycleFitCurve d k1 k2 k3 schedules n_days
    some ⟨schedules, residualRmsOf target curve n_days, curve.map pyRound1⟩

/-- `compute_cycle_fit_regimen` from `const.py`: candidate pool construction,
greedy selection and the finishing stage, against the 28-day menstrual
reference curve. -/
def compute_cycle_fit_regimen (ester method : String) (max_schedules : ℕ) :
    Option CycleFitResult :=
  match ESTER_METHOD_TO_MODEL ester method with
  | none => none
  | some mkey =>
    let model_key := if mkey = "patch" then "patch tw" else mkey
    match PK_PARAMETERS model_key with
    | none => none
    | some (d, k1, k2, k3) =>
      let n_days := 28
      let target := MENSTRUAL_E2.take n_days
      let base := (SUGGESTED_INTERVALS model_key).getD [7.0]
      let pool := (base ++ [3.5, 4.0, 5.0, 7.0, 9.0, 10.0, 14.0, 28.0]).dedup.insertionSort (· ≤ ·)
      let candidates := pool.foldl
        (fun acc intv =>
          if intv < 2.0 ∨ 28.0 < intv then acc
          else
            acc ++ (List.range (max 1 (⌈intv⌉ : ℤ).toNat)).map
              (fun phase =>
                (intv, (phase : ℝ),
                  _compute_basis_vector intv (phase : ℝ) d k1 k2 k3 n_days)))
        []
      let baseline_mse := (target.foldl (fun acc v => acc + v ^ 2) (0 : ℝ)) / (n_days : ℝ)
      let gr := greedySelect candidates target n_days max_schedules 0 [] baseline_mse
      match gr.1 with
      | [] => none
      | _ => cycleFitFinish d k1 k2 k3 model_key candidates target n_days gr.1

/-- The result of `compute_suggested_regimen`: `None`, a single-schedule
regimen, or a cycle-fit regimen (the source returns differently-shaped
dictionaries for the latter two). -/
inductive RegimenResult where
  | noRegimen : RegimenResult
  | single (dose_mg interval_days : ℝ) (model_key : String) : RegimenResult
  | cycle (r : CycleFitResult) : RegimenResult

/-- `compute_suggested_regimen` from `const.py`. -/
def compute_suggested_regimen (ester method target_type : String) : RegimenResult :=
  if target_type = "menstrual_range" then
    match compute_cycle_fit_regimen ester method 4 with
    | none => RegimenResult.noRegimen
    | some r => RegimenResult.cycle r
  else
    let target_trough := (TARGET_TROUGH target_type).getD 200.0
    match ESTER_METHOD_TO_MODEL ester method with
    | none => RegimenResult.noRegimen
    | some mkey =>
      let model_key := if mkey = "patch" then "patch tw" else mkey
      match PK_PARAMETERS model_key with
      | none => RegimenResult.noRegimen
      | some p =>
        let intervals := (SUGGESTED_INTERVALS model_key).getD [7.0]
        match pickInterval model_key p.1 p.2.1 p.2.2.1 p.2.2.2 target_trough intervals with
        | none => RegimenResult.noRegimen
        | some di => RegimenResult.single di.1 di.2 model_key

/- ── Generic helper lemmas ──────────────────────────────────────────────── -/

lemma foldl_add_contrib (t : ℝ) (doses : List DoseRec) (init : ℝ) :
    doses.foldl (fun total rec => total + doseContribution t rec) init
      = init + (doses.map (doseContribution t)).sum := by
  induction doses generalizing init with
  | nil => simp
  | cons r rest ih => simp [ih, add_assoc]

/- ── Dose-amount linearity of the curve engine ──────────────────────────── -/

lemma e2_curve_3c_smul (t dose d k1 k2 k3 c : ℝ) (hc : 0 ≤ c) :
    e2_curve_3c t (c * dose) d k1 k2 k3 = c * e2_curve_3c t dose d k1 k2 k3 := by
  unfold e2_curve_3c
  by_cases ht : t < 0
  · simp [ht]
  rcases hc.eq_or_lt with rfl | hc'
  · simp [ht]
  by_cases hdd : dose ≤ 0 ∨ d ≤ 0
  · have hdd' : c * dose ≤ 0 ∨ d ≤ 0 := by
      rcases hdd with h | h
      · exact Or.inl (mul_nonpos_iff.2 (Or.inl ⟨hc'.le, h⟩))
      · exact Or.inr h
    simp [ht, hdd, hdd']
  · have hdd' : ¬(c * dose ≤ 0 ∨ d ≤ 0) := by
      push_neg at hdd ⊢
      exact ⟨mul_pos hc' hdd.1, hdd.2⟩
    rw [if_neg ht, if_neg ht, if_neg hdd, if_neg hdd']
    split_ifs <;> ring

lemma _es_single_dose_3c_smul (t dose d k1 k2 c : ℝ) (hc : 0 ≤ c) :
    _es_single_dose_3c t (c * dose) d k1 k2 = c * _es_single_dose_3c t dose d k1 k2 := by
  unfold _es_single_dose_3c
  by_cases ht : t < 0
  · simp [ht]
  rcases hc.eq_or_lt with rfl | hc'
  · simp [ht]
  by_cases hdd : dose ≤ 0 ∨ d ≤ 0
  · have hdd' : c * dose ≤ 0 ∨ d ≤ 0 := by
      rcases hdd with h | h
      · exact Or.inl (mul_nonpos_iff.2 (Or.inl ⟨hc'.le, h⟩))
      · exact Or.inr h
    simp [ht, hdd, hdd']
  · have hdd' : ¬(c * dose ≤ 0 ∨ d ≤ 0) := by
      push_neg at hdd ⊢
      exact ⟨mul_pos hc' hdd.1, hdd.2⟩
    rw [if_neg ht, if_neg ht, if_neg hdd, if_neg hdd']
    split_ifs <;> ring

lemma e2_patch_post_removal_smul (dose d k1 k2 k3 w ta c : ℝ) (hc : 0 ≤ c) :
    e2_patch_post_removal (c * dose) d k1 k2 k3 w ta
      = c * e2_patch_post_removal dose d k1 k2 k3 w ta := by
  unfold e2_patch_post_removal
  dsimp only
  rw [_es_single_dose_3c_smul w dose d k1 k2 c hc,
    e2_curve_3c_smul w dose d k1 k2 k3 c hc]
  rcases hc.eq_or_lt with rfl | hc'
  · simp
  · have hes := mul_pos_iff_of_pos_left
      (b := _es_single_dose_3c w dose d k1 k2) hc'
    have he2 := mul_pos_iff_of_pos_left
      (b := e2_curve_3c w dose d k1 k2 k3) hc'
    rw [mul_add]
    congr 1
    · by_cases h : 0 < _es_single_dose_3c w dose d k1 k2
      · rw [if_pos (hes.mpr h), if_pos h]
        split_ifs <;> ring
      · rw [if_neg (fun hx => h (hes.mp hx)), if_neg h, mul_zero]
    · by_cases h : 0 < e2_curve_3c w dose d k1 k2 k3
      · rw [if_pos (he2.mpr h), if_pos h]
        ring
      · rw [if_neg (fun hx => h (he2.mp hx)), if_neg h, mul_zero]

lemma e2_patch_3c_smul (t dose d k1 k2 k3 w c : ℝ) (hc : 0 ≤ c) :
    e2_patch_3c t (c * dose) d k1 k2 k3 w = c * e2_patch_3c t dose d k1 k2 k3 w := by
  unfold e2_patch_3c
  split_ifs with ht hw
  · ring
  · exact e2_curve_3c_smul t dose d k1 k2 k3 c hc
  · exact e2_patch_post_removal_smul dose d k1 k2 k3 w (t - w) c hc

lemma doseContribution_smul (t : ℝ) (r : DoseRec) (c : ℝ) (hc : 0 ≤ c) :
    doseContribution t (scaleDose c r) = c * doseContribution t r := by
  unfold doseContribution scaleDose
  cases h : PK_PARAMETERS r.model with
  | none => simp [h]
  | some p =>
    obtain ⟨d, k1, k2, k3⟩ := p
    cases hw : PATCH_WEAR_DAYS r.model with
    | none => simp [h, hw, e2_curve_3c_smul _ _ _ _ _ _ _ hc]
    | some w => simp [h, hw, e2_patch_3c_smul _ _ _ _ _ _ _ _ hc]

/- ── Claim theorems: C3, C6, C9, C2 ─────────────────────────────────────── -/

/-- C3: `compute_e2_at_time` is linear in the scale argument
(`levelAt(t, doses, c*s) = c * levelAt(t, doses, s)`), decomposes as the
scale times the sum of independent per-record contributions (superposition),
and multiplying one record's `dose_mg` by `c ≥ 0` multiplies exactly that
record's contribution by `c`, leaving the other records' contributions
unchanged. -/
theorem claim_C3 (t_now s c : ℝ) (doses pre post : List DoseRec) (r : DoseRec) :
    compute_e2_at_time t_now doses (c * s) = c * compute_e2_at_time t_now doses s
    ∧ compute_e2_at_time t_now doses s = s * ((doses.map (doseContribution t_now)).sum)
    ∧ (0 ≤ c → compute_e2_at_time t_now (pre ++ scaleDose c r :: post) s
        = s * ((pre.map (doseContribution t_now)).sum
            + c * doseContribution t_now r
            + (post.map (doseContribution t_now)).sum)) := by
  refine ⟨?_, ?_, ?_⟩
  · unfold compute_e2_at_time
    ring
  · unfold compute_e2_at_time
    rw [foldl_add_contrib]
    ring
  · intro hc
    unfold compute_e2_at_time
    rw [foldl_add_contrib]
    simp only [List.map_append, List.map_cons, List.sum_append, List.sum_cons,
      doseContribution_smul t_now r c hc]
    ring

/-- C3 witness: the linearity theorem applied at a concrete input. -/
theorem claim_C3_witness :
    compute_e2_at_time 0 [] ((2 : ℝ) * 3) = 2 * compute_e2_at_time 0 [] 3
    ∧ compute_e2_at_time 0 ([] ++ scaleDose 2 ⟨0, "EEn im", 1⟩ :: []) 3
        = 3 * (([] : List DoseRec).map (doseContribution 0)).sum
            + 3 * (2 * doseContribution 0 ⟨0, "EEn im", 1⟩)
            + 3 * (([] : List DoseRec).map (doseContribution 0)).sum := by
  refine ⟨(claim_C3 0 3 2 [] [] [] ⟨0, "EEn im", 1⟩).1, ?_⟩
  have h := (claim_C3 0 3 2 [] [] [] ⟨0, "EEn im", 1⟩).2.2 (by norm_num)
  rw [h]
  ring

/-- C6: `e2_curve_3c` returns 0 whenever `t < 0` or `dose ≤ 0`, and for every
strictly positive parameter set it returns 0 at `t = 0` in every
rate-constant coincidence branch. -/
theorem claim_C6 (t dose d k1 k2 k3 : ℝ) :
    ((t < 0 ∨ dose ≤ 0) → e2_curve_3c t dose d k1 k2 k3 = 0)
    ∧ (0 < d → 0 < k1 → 0 < k2 → 0 < k3 →
        e2_curve_3c 0 dose d k1 k2 k3 = 0) := by
  constructor
  · intro h
    unfold e2_curve_3c
    by_cases ht : t < 0
    · simp [ht]
    · have hd0 : dose ≤ 0 := h.resolve_left ht
      rw [if_neg ht, if_pos (Or.inl hd0)]
  · intro hd h1 h2 h3
    unfold e2_curve_3c
    rw [if_neg (by norm_num : ¬(0 : ℝ) < 0)]
    split_ifs with hdd c1 c2 c3 c4
    · rfl
    · simp
    · simp [Real.exp_zero]
    · simp [Real.exp_zero]
    · simp [Real.exp_zero]
    · have hk12 : k1 ≠ k2 := by tauto
      have hk13 : k1 ≠ k3 := by tauto
      have hk23 : k2 ≠ k3 := by tauto
      have n12 : k1 - k2 ≠ 0 := sub_ne_zero.mpr hk12
      have n13 : k1 - k3 ≠ 0 := sub_ne_zero.mpr hk13
      have n23 : k2 - k3 ≠ 0 := sub_ne_zero.mpr hk23
      simp only [mul_zero, Real.exp_zero]
      field_simp
      ring

/-- C6 witness: zero at negative elapsed time and zero at `t = 0`, at
concrete inputs. -/
theorem claim_C6_witness :
    e2_curve_3c (-1) 1 1 1 1 1 = 0 ∧ e2_curve_3c 0 1 1 1 2 3 = 0 :=
  ⟨(claim_C6 (-1) 1 1 1 1 1).1 (Or.inl (by norm_num)),
   (claim_C6 0 1 1 1 2 3).2 (by norm_num) (by norm_num) (by norm_num) (by norm_num)⟩

/-- C9: a dose record whose model key is not in the PK parameter table is
skipped by `compute_e2_at_time`: appending it leaves the result unchanged
(and, the function being total, no error is possible). -/
theorem claim_C9 (r : DoseRec) (h : PK_PARAMETERS r.model = none)
    (t_now : ℝ) (doses : List DoseRec) (s : ℝ) :
    compute_e2_at_time t_now (doses ++ [r]) s = compute_e2_at_time t_now doses s := by
  unfold compute_e2_at_time
  rw [foldl_add_contrib, foldl_add_contrib]
  simp [doseContribution, h]

/-- C9 witness: appending a record with an unknown model key at a concrete
input. -/
theorem claim_C9_witness :
    compute_e2_at_time 0 ([⟨0, "EEn im", 4⟩] ++ [⟨0, "no such model", 5⟩]) 1
      = compute_e2_at_time 0 [⟨0, "EEn im", 4⟩] 1 :=
  claim_C9 ⟨0, "no such model", 5⟩ (by simp [PK_PARAMETERS]) 0 [⟨0, "EEn im", 4⟩] 1

lemma foldl_csfStep_all_skip (now : ℝ) (all_doses : List DoseRec) (lam : ℝ)
    (l : List BloodTest)
    (h : ∀ test ∈ l, compute_e2_at_time test.timestamp all_doses 1.0 < 1.0)
    (acc : ℝ × ℝ × List (ℝ × ℝ)) :
    l.foldl (csfStep now all_doses lam) acc = acc := by
  induction l generalizing acc with
  | nil => rfl
  | cons a l ih =>
    have ha := h a (List.mem_cons_self a l)
    have hstep : csfStep now all_doses lam acc a = acc := by
      unfold csfStep
      rw [if_pos ha]
    rw [List.foldl_cons, hstep]
    exact ih (fun test ht => h test (List.mem_cons_of_mem a ht)) acc

/-- C2: if every test's prediction at scale 1.0 is below the 1-unit threshold
then `compute_scaling_factor` returns exactly `(1.0, 0.0)`, and for every
input the returned factor lies in `[0, 2]`. -/
theorem claim_C2 (now : ℝ) (tests : List BloodTest) (all_doses : List DoseRec)
    (lam : ℝ) :
    ((∀ test ∈ tests, compute_e2_at_time test.timestamp all_doses 1.0 < 1.0) →
        compute_scaling_factor now tests all_doses lam = (1.0, 0.0))
    ∧ 0 ≤ (compute_scaling_factor now tests all_doses lam).1
    ∧ (compute_scaling_factor now tests all_doses lam).1 ≤ 2 := by
  refine ⟨?_, ?_⟩
  · intro h
    cases tests with
    | nil => rfl
    | cons a l =>
      unfold compute_scaling_factor
      rw [foldl_csfStep_all_skip now all_doses lam (a :: l) h (0, 0, [])]
      norm_num
  · cases tests with
    | nil =>
      constructor <;> norm_num [compute_scaling_factor]
    | cons a l =>
      unfold compute_scaling_factor
      set acc := (a :: l).foldl (csfStep now all_doses lam) (0, 0, []) with hacc
      by_cases hw : acc.2.1 ≤ 0
      · rw [if_pos hw]
        norm_num
      · rw [if_neg hw]
        constructor
        · exact le_max_left 0 _
        · exact max_le (by norm_num) (min_le_left 2 _)

/-- C2 witness: a single test predicting 0 concentration (no doses) fires the
no-usable-test path, and the factor bounds hold there. -/
theorem claim_C2_witness :
    compute_scaling_factor 0 [⟨0, 50⟩] [] 0 = (1.0, 0.0)
    ∧ 0 ≤ (compute_scaling_factor 0 [⟨0, 50⟩] [] 0).1
    ∧ (compute_scaling_factor 0 [⟨0, 50⟩] [] 0).1 ≤ 2 := by
  have h := claim_C2 0 [⟨0, 50⟩] [] 0
  refine ⟨h.1 ?_, h.2.1, h.2.2⟩
  intro test ht
  have : test = (⟨0, 50⟩ : BloodTest) := by
    simpa using ht
  subst this
  norm_num [compute_e2_at_time]

/- ── Non-negativity of the curve engine (C1) ────────────────────────────── -/

lemma convexOn_exp_neg_mul (t : ℝ) :
    ConvexOn ℝ Set.univ (fun x : ℝ => Real.exp (-x * t)) := by
  refine ⟨convex_univ, fun x _ y _ a b ha hb hab => ?_⟩
  have h := convexOn_exp.2 (Set.mem_univ (-x * t)) (Set.mem_univ (-y * t)) ha hb hab
  simp only [smul_eq_mul] at h ⊢
  have e : -(a * x + b * y) * t = a * (-x * t) + b * (-y * t) := by ring
  rw [e]
  exact h

lemma sum3exp_swap_ab (t a b c : ℝ) (hab : a ≠ b) (hac : a ≠ c) (hbc : b ≠ c) :
    sum3exp t a b c = sum3exp t b a c := by
  have nab : a - b ≠ 0 := sub_ne_zero.mpr hab
  have nba : b - a ≠ 0 := sub_ne_zero.mpr hab.symm
  have nac : a - c ≠ 0 := sub_ne_zero.mpr hac
  have nbc : b - c ≠ 0 := sub_ne_zero.mpr hbc
  unfold sum3exp
  field_simp
  ring

lemma sum3exp_swap_bc (t a b c : ℝ) (hab : a ≠ b) (hac : a ≠ c) (hbc : b ≠ c) :
    sum3exp t a b c = sum3exp t a c b := by
  have nab : a - b ≠ 0 := sub_ne_zero.mpr hab
  have nac : a - c ≠ 0 := sub_ne_zero.mpr hac
  have nca : c - a ≠ 0 := sub_ne_zero.mpr hac.symm
  have nbc : b - c ≠ 0 := sub_ne_zero.mpr hbc
  have ncb : c - b ≠ 0 := sub_ne_zero.mpr hbc.symm
  unfold sum3exp
  field_simp
  ring

lemma sum3exp_nonneg_sorted (t a b c : ℝ) (hab : a < b) (hbc : b < c) :
    0 ≤ sum3exp t a b c := by
  have key := (convexOn_exp_neg_mul t).slope_mono_adjacent
    (Set.mem_univ a) (Set.mem_univ c) hab hbc
  have hba : b - a ≠ 0 := sub_ne_zero.mpr hab.ne'
  have hcb : c - b ≠ 0 := sub_ne_zero.mpr hbc.ne'
  have hca : (0 : ℝ) < c - a := by linarith
  have hE : sum3exp t a b c
      = ((Real.exp (-c * t) - Real.exp (-b * t)) / (c - b)
          - (Real.exp (-b * t) - Real.exp (-a * t)) / (b - a)) / (c - a) := by
    have n1 : a - b ≠ 0 := sub_ne_zero.mpr hab.ne
    have n2 : a - c ≠ 0 := sub_ne_zero.mpr (hab.trans hbc).ne
    have n3 : b - c ≠ 0 := sub_ne_zero.mpr hbc.ne
    have n4 : c - a ≠ 0 := ne_of_gt hca
    unfold sum3exp
    field_simp
    ring
  rw [hE]
  exact div_nonneg (sub_nonneg.2 key) hca.le

lemma sum3exp_nonneg (t a b c : ℝ) (hab : a ≠ b) (hac : a ≠ c) (hbc : b ≠ c) :
    0 ≤ sum3exp t a b c := by
  rcases lt_trichotomy a b with h1 | h1 | h1
  · rcases lt_trichotomy b c with h2 | h2 | h2
    · exact sum3exp_nonneg_sorted t a b c h1 h2
    · exact absurd h2 hbc
    · rcases lt_trichotomy a c with h3 | h3 | h3
      · rw [sum3exp_swap_bc t a b c hab hac hbc]
        exact sum3exp_nonneg_sorted t a c b h3 h2
      · exact absurd h3 hac
      · rw [sum3exp_swap_bc t a b c hab hac hbc,
          sum3exp_swap_ab t a c b hac hab hbc.symm]
        exact sum3exp_nonneg_sorted t c a b h3 h1
  · exact absurd h1 hab
  · rcases lt_trichotomy a c with h2 | h2 | h2
    · rw [sum3exp_swap_ab t a b c hab hac hbc]
      exact sum3exp_nonneg_sorted t b a c h1 h2
    · exact absurd h2 hac
    · rcases lt_trichotomy b c with h3 | h3 | h3
      · rw [sum3exp_swap_ab t a b c hab hac hbc,
          sum3exp_swap_bc t b a c hab.symm hbc hac]
        exact sum3exp_nonneg_sorted t b c a h3 h2
      · exact absurd h3 hbc
      · rw [sum3exp_swap_bc t a b c hab hac hbc,
          sum3exp_swap_ab t a c b hac hab hbc.symm,
          sum3exp_swap_bc t c a b hac.symm hbc.symm hab]
        exact sum3exp_nonneg_sorted t c b a h3 h1

lemma twoeq_num_nonneg (x y t : ℝ) :
    0 ≤ Real.exp (-y * t) - Real.exp (-x * t) * (1 + (x - y) * t) := by
  have h := Real.add_one_le_exp ((x - y) * t)
  have hp := (Real.exp_pos (-x * t)).le
  have h2 : Real.exp (-x * t) * ((x - y) * t + 1)
      ≤ Real.exp (-x * t) * Real.exp ((x - y) * t) :=
    mul_le_mul_of_nonneg_left h hp
  rw [← Real.exp_add] at h2
  have h3 : -x * t + (x - y) * t = -y * t := by ring
  rw [h3] at h2
  have h4 : Real.exp (-x * t) * (1 + (x - y) * t)
      = Real.exp (-x * t) * ((x - y) * t + 1) := by ring
  linarith

lemma e2_curve_3c_nonneg (t dose d k1 k2 k3 : ℝ)
    (h1 : 0 < k1) (h2 : 0 < k2) (h3 : 0 < k3) :
    0 ≤ e2_curve_3c t dose d k1 k2 k3 := by
  unfold e2_curve_3c
  split_ifs with ht hdd c1 c2 c3 c4
  · exact le_rfl
  · exact le_rfl
  · push_neg at hdd
    have ht' : 0 ≤ t := not_lt.1 ht
    apply div_nonneg _ (by norm_num : (0 : ℝ) ≤ 2)
    have e : dose * d * k1 * k1 * t * t * Real.exp (-k1 * t)
        = (dose * d * k1 * k1 * Real.exp (-k1 * t)) * (t * t) := by ring
    rw [e]
    exact mul_nonneg
      (mul_nonneg (mul_nonneg (mul_nonneg (mul_nonneg hdd.1.le hdd.2.le) h1.le) h1.le)
        (Real.exp_pos _).le)
      (mul_self_nonneg t)
  · push_neg at hdd
    rw [div_div]
    exact div_nonneg
      (mul_nonneg (mul_nonneg (mul_nonneg (mul_nonneg hdd.1.le hdd.2.le) h1.le) h1.le)
        (twoeq_num_nonneg k1 k3 t))
      (mul_self_nonneg _)
  · push_neg at hdd
    rw [div_div]
    exact div_nonneg
      (mul_nonneg (mul_nonneg (mul_nonneg (mul_nonneg hdd.1.le hdd.2.le) h1.le) h2.le)
        (twoeq_num_nonneg k1 k2 t))
      (mul_self_nonneg _)
  · push_neg at hdd
    rw [div_div]
    have e : 1 - (k1 - k2) * t = 1 + (k2 - k1) * t := by ring
    rw [e]
    exact div_nonneg
      (mul_nonneg (mul_nonneg (mul_nonneg (mul_nonneg hdd.1.le hdd.2.le) h1.le) h2.le)
        (twoeq_num_nonneg k2 k1 t))
      (mul_self_nonneg _)
  · push_neg at hdd
    have hk12 : k1 ≠ k2 := by tauto
    have hk13 : k1 ≠ k3 := by tauto
    have hk23 : k2 ≠ k3 := by tauto
    apply mul_nonneg
    · exact mul_nonneg (mul_nonneg (mul_nonneg hdd.1.le hdd.2.le) h1.le) h2.le
    · simp only [div_div]
      exact sum3exp_nonneg t k1 k2 k3 hk12 hk13 hk23

lemma _es_single_dose_3c_nonneg (t dose d k1 k2 : ℝ) (h1 : 0 < k1) :
    0 ≤ _es_single_dose_3c t dose d k1 k2 := by
  unfold _es_single_dose_3c
  split_ifs with ht hdd hk
  · exact le_rfl
  · exact le_rfl
  · push_neg at hdd
    have ht' : 0 ≤ t := not_lt.1 ht
    exact mul_nonneg
      (mul_nonneg (mul_nonneg (mul_nonneg hdd.1.le hdd.2.le) h1.le) ht')
      (Real.exp_pos _).le
  · push_neg at hdd
    have ht' : 0 ≤ t := not_lt.1 ht
    have hnum : 0 ≤ dose * d * k1 := mul_nonneg (mul_nonneg hdd.1.le hdd.2.le) h1.le
    rcases lt_or_gt_of_ne hk with h | h
    · have he : Real.exp (-k2 * t) ≤ Real.exp (-k1 * t) :=
        Real.exp_le_exp.2 (by nlinarith)
      have hA : dose * d * k1 / (k1 - k2) ≤ 0 := by
        rw [div_eq_mul_inv]
        exact mul_nonpos_iff.2 (Or.inl ⟨hnum, inv_nonpos.2 (by linarith)⟩)
      exact mul_nonneg_iff.2 (Or.inr ⟨hA, by linarith⟩)
    · have he : Real.exp (-k1 * t) ≤ Real.exp (-k2 * t) :=
        Real.exp_le_exp.2 (by nlinarith)
      exact mul_nonneg (div_nonneg hnum (by linarith)) (by linarith)

lemma e2_patch_post_removal_nonneg (dose d k1 k2 k3 w ta : ℝ)
    (h2 : 0 < k2) (h3 : 0 < k3) (hta : 0 ≤ ta) :
    0 ≤ e2_patch_post_removal dose d k1 k2 k3 w ta := by
  unfold e2_patch_post_removal
  dsimp only
  apply add_nonneg
  · split_ifs with hes hk
    · exact mul_nonneg (mul_nonneg (mul_nonneg hes.le h2.le) hta) (Real.exp_pos _).le
    · have hnum : 0 ≤ _es_single_dose_3c w dose d k1 k2 * k2 :=
        mul_nonneg hes.le h2.le
      rcases lt_or_gt_of_ne hk with h | h
      · have he : Real.exp (-k3 * ta) ≤ Real.exp (-k2 * ta) :=
          Real.exp_le_exp.2 (by nlinarith)
        have hA : _es_single_dose_3c w dose d k1 k2 * k2 / (k2 - k3) ≤ 0 := by
          rw [div_eq_mul_inv]
          exact mul_nonpos_iff.2 (Or.inl ⟨hnum, inv_nonpos.2 (by linarith)⟩)
        exact mul_nonneg_iff.2 (Or.inr ⟨hA, by linarith⟩)
      · have he : Real.exp (-k2 * ta) ≤ Real.exp (-k3 * ta) :=
          Real.exp_le_exp.2 (by nlinarith)
        exact mul_nonneg (div_nonneg hnum (by linarith)) (by linarith)
    · exact le_rfl
  · split_ifs with he2
    · exact mul_nonneg he2.le (Real.exp_pos _).le
    · exact le_rfl

lemma e2_patch_3c_nonneg (t dose d k1 k2 k3 w : ℝ)
    (h1 : 0 < k1) (h2 : 0 < k2) (h3 : 0 < k3) :
    0 ≤ e2_patch_3c t dose d k1 k2 k3 w := by
  unfold e2_patch_3c
  split_ifs with ht hw
  · exact le_rfl
  · exact e2_curve_3c_nonneg t dose d k1 k2 k3 h1 h2 h3
  · refine e2_patch_post_removal_nonneg dose d k1 k2 k3 w (t - w) h2 h3 ?_
    push_neg at hw
    linarith

/-- C1: for dose ≥ 0 and strictly positive model parameters, every
rate-constant coincidence branch of `e2_curve_3c`, and `e2_patch_3c` with
wear duration `w > 0`, yields a non-negative concentration contribution at
every query time `t`. -/
theorem claim_C1 (t dose d k1 k2 k3 w : ℝ) (hd : 0 < d) (h1 : 0 < k1)
    (h2 : 0 < k2) (h3 : 0 < k3) (hdose : 0 ≤ dose) (hw : 0 < w) :
    0 ≤ e2_curve_3c t dose d k1 k2 k3 ∧ 0 ≤ e2_patch_3c t dose d k1 k2 k3 w :=
  ⟨e2_curve_3c_nonneg t dose d k1 k2 k3 h1 h2 h3,
   e2_patch_3c_nonneg t dose d k1 k2 k3 w h1 h2 h3⟩

/-- C1 witness: non-negativity at a concrete input with all-distinct rate
constants. -/
theorem claim_C1_witness :
    0 ≤ e2_curve_3c 1 1 1 1 2 3 ∧ 0 ≤ e2_patch_3c 1 1 1 1 2 3 1 :=
  claim_C1 1 1 1 1 2 3 1 (by norm_num) (by norm_num) (by norm_num) (by norm_num)
    (by norm_num) (by norm_num)

/-- C10: the post-removal branch of `e2_patch_3c`, evaluated at elapsed time
0 after removal, equals the worn-branch value `e2_curve_3c w dose d k1 k2 k3`
(covering both the `k2 = k3` and `k2 ≠ k3` sub-cases), so the patch curve has
no jump at `t = w`. -/
theorem claim_C10 (dose d k1 k2 k3 w : ℝ) (hdose : 0 < dose) (hd : 0 < d)
    (h1 : 0 < k1) (h2 : 0 < k2) (h3 : 0 < k3) (hw : 0 < w) :
    e2_patch_post_removal dose d k1 k2 k3 w 0 = e2_curve_3c w dose d k1 k2 k3 := by
  have hcurve := e2_curve_3c_nonneg w dose d k1 k2 k3 h1 h2 h3
  unfold e2_patch_post_removal
  dsimp only
  simp only [mul_zero, zero_mul, Real.exp_zero, mul_one, sub_self, ite_self, zero_add]
  by_cases he2 : 0 < e2_curve_3c w dose d k1 k2 k3
  · rw [if_pos he2]
  · rw [if_neg he2]
    exact (le_antisymm (not_lt.1 he2) hcurve).symm

/-- C10 witness: continuity at removal for a concrete parameter set. -/
theorem claim_C10_witness :
    e2_patch_post_removal 1 1 1 2 3 1 0 = e2_curve_3c 1 1 1 1 2 3 :=
  claim_C10 1 1 1 2 3 1 (by norm_num) (by norm_num) (by norm_num) (by norm_num)
    (by norm_num) (by norm_num)

lemma foldl_add_generic {α : Type} (l : List α) (f : α → ℝ) (init : ℝ) :
    l.foldl (fun acc a => acc + f a) init = init + (l.map f).sum := by
  induction l generalizing init with
  | nil => simp
  | cons a l ih => simp [ih, add_assoc]

lemma sum_map_range' (f : ℕ → ℝ) (s : ℕ) :
    ∀ n, ((List.range' s n).map f).sum = ∑ i in Finset.Ico s (s + n), f i
  | 0 => by simp
  | n + 1 => by
    rw [List.range'_concat, List.map_append, List.sum_append, sum_map_range' f s n]
    rw [show s + (n + 1) = (s + n) + 1 from rfl,
      Finset.sum_Ico_succ_top (Nat.le_add_right s n)]
    simp

/-- C5: the steady-state trough-per-unit-dose the single-target solver
computes for a candidate interval is exactly the sum of the single-dose
(bolus or patch) response at `t = n * interval` for `n` ranging over the
fixed horizon `[1, 60)`; and on a candidate interval that is not skipped
(at most 4 doses/week) with positive trough, the solver returns the dose
`target / troughPerMg` rounded to the nearest 0.5 unit and clamped to
`[0.5, 20]`, with that interval. -/
theorem claim_C5 (model_key : String) (d k1 k2 k3 interval target_trough : ℝ)
    (rest : List ℝ) :
    troughPerMg model_key d k1 k2 k3 interval
      = ∑ n in Finset.Ico (1 : ℕ) 60,
          (match PATCH_WEAR_DAYS model_key with
            | some w => e2_patch_3c ((n : ℝ) * interval) 1.0 d k1 k2 k3 w
            | none => e2_curve_3c ((n : ℝ) * interval) 1.0 d k1 k2 k3)
    ∧ (¬ (7.0 / interval > 4.0) → 0 < troughPerMg model_key d k1 k2 k3 interval →
        pickInterval model_key d k1 k2 k3 target_trough (interval :: rest)
          = some (max 0.5 (min 20.0
              (roundHalfUnit (target_trough / troughPerMg model_key d k1 k2 k3 interval))),
              interval)) := by
  constructor
  · unfold troughPerMg
    rw [foldl_add_generic, zero_add, sum_map_range']
  · intro hskip hpos
    rw [pickInterval, if_neg hskip, if_neg (not_le.mpr hpos)]

lemma e2_curve_3c_pos_of_all_eq (t : ℝ) (ht : 0 < t) :
    0 < e2_curve_3c t 1.0 1 1 1 1 := by
  unfold e2_curve_3c
  rw [if_neg (by linarith), if_neg (by norm_num), if_pos ⟨rfl, rfl⟩]
  have h := mul_pos (mul_pos ht ht) (Real.exp_pos (-1 * t))
  nlinarith [h]

/-- C5 witness: the trough equality and the solver's dose formula at a
concrete input whose trough is provably positive. -/
theorem claim_C5_witness :
    troughPerMg "zzz" 1 1 1 1 2
      = ∑ n in Finset.Ico (1 : ℕ) 60, e2_curve_3c ((n : ℝ) * 2) 1.0 1 1 1 1
    ∧ pickInterval "zzz" 1 1 1 1 200 [2]
      = some (max 0.5 (min 20.0 (roundHalfUnit (200 / troughPerMg "zzz" 1 1 1 1 2))), 2) := by
  have hnone : PATCH_WEAR_DAYS "zzz" = none := by simp [PATCH_WEAR_DAYS]
  have h := claim_C5 "zzz" 1 1 1 1 2 200 []
  have e1 : troughPerMg "zzz" 1 1 1 1 2
      = ∑ n in Finset.Ico (1 : ℕ) 60, e2_curve_3c ((n : ℝ) * 2) 1.0 1 1 1 1 := by
    rw [h.1]
    refine Finset.sum_congr rfl ?_
    intro n _
    rw [hnone]
  have hpos : 0 < troughPerMg "zzz" 1 1 1 1 2 := by
    rw [e1]
    apply Finset.sum_pos
    · intro n hn
      have hn1 : 1 ≤ n := (Finset.mem_Ico.1 hn).1
      have htpos : (0 : ℝ) < (n : ℝ) * 2 := by
        have : (1 : ℝ) ≤ (n : ℝ) := by exact_mod_cast hn1
        linarith
      exact e2_curve_3c_pos_of_all_eq ((n : ℝ) * 2) htpos
    · exact ⟨1, by simp⟩
  exact ⟨e1, h.2 (by norm_num) hpos⟩

/-- C8: with `t ≥ 0`, `dose > 0`, `d > 0` and `k1 ≠ k3` fixed, the value of
the all-distinct branch of `e2_curve_3c` converges to its `k1 = k2`
two-equal-branch value as `k2` tends to `k1` (through values distinct from
`k1` and `k3`): the singularity of the partial-fraction coefficients at
`k2 = k1` is removable, with no blow-up. -/
theorem claim_C8 (t dose d k1 k3 : ℝ) (ht : 0 ≤ t) (hdose : 0 < dose)
    (hd : 0 < d) (h13 : k1 ≠ k3) :
    Filter.Tendsto (fun k2 => e2_curve_3c t dose d k1 k2 k3)
      (𝓝[{x : ℝ | x ≠ k1 ∧ x ≠ k3}] k1)
      (𝓝 (e2_curve_3c t dose d k1 k1 k3)) := by
  set s : Set ℝ := {x : ℝ | x ≠ k1 ∧ x ≠ k3} with hs
  have h13' : k1 - k3 ≠ 0 := sub_ne_zero.mpr h13
  set D : ℝ := Real.exp (-k1 * t) * -t * (k1 - k3) - Real.exp (-k1 * t) with hD
  have hderiv : HasDerivAt
      (fun y : ℝ => Real.exp (-y * t) * (k1 - k3) - Real.exp (-k1 * t) * (y - k3)) D k1 := by
    have h1 : HasDerivAt (fun y : ℝ => -y * t) (-t) k1 := by
      simpa using (hasDerivAt_id k1).neg.mul_const t
    have h2 : HasDerivAt (fun y : ℝ => Real.exp (-y * t)) (Real.exp (-k1 * t) * -t) k1 :=
      h1.exp
    have h3 := h2.mul_const (k1 - k3)
    have h4 : HasDerivAt (fun y : ℝ => Real.exp (-k1 * t) * (y - k3))
        (Real.exp (-k1 * t)) k1 := by
      simpa using ((hasDerivAt_id k1).sub_const k3).const_mul (Real.exp (-k1 * t))
    exact h3.sub h4
  have hslope := hasDerivAt_iff_tendsto_slope.1 hderiv
  have hsub : s ⊆ {x : ℝ | x ≠ k1} := fun x hx => hx.1
  have hslope' : Filter.Tendsto
      (slope (fun y : ℝ => Real.exp (-y * t) * (k1 - k3) - Real.exp (-k1 * t) * (y - k3)) k1)
      (𝓝[s] k1) (𝓝 D) :=
    hslope.mono_left (nhdsWithin_mono k1 hsub)
  have hx : Filter.Tendsto (fun x : ℝ => x) (𝓝[s] k1) (𝓝 k1) :=
    tendsto_id.mono_left nhdsWithin_le_nhds
  have hden : Filter.Tendsto (fun x : ℝ => (k1 - k3) * (x - k3)) (𝓝[s] k1)
      (𝓝 ((k1 - k3) * (k1 - k3))) :=
    tendsto_const_nhds.mul (hx.sub tendsto_const_nhds)
  have hnum : Filter.Tendsto
      (fun x : ℝ => slope (fun y : ℝ => Real.exp (-y * t) * (k1 - k3)
        - Real.exp (-k1 * t) * (y - k3)) k1 x + Real.exp (-k3 * t))
      (𝓝[s] k1) (𝓝 (D + Real.exp (-k3 * t))) :=
    hslope'.add tendsto_const_nhds
  have hfrac := hnum.div hden (mul_ne_zero h13' h13')
  have hG : Filter.Tendsto
      (fun x : ℝ => dose * d * k1 * x
        * ((slope (fun y : ℝ => Real.exp (-y * t) * (k1 - k3)
            - Real.exp (-k1 * t) * (y - k3)) k1 x + Real.exp (-k3 * t))
          / ((k1 - k3) * (x - k3))))
      (𝓝[s] k1)
      (𝓝 (dose * d * k1 * k1 * ((D + Real.exp (-k3 * t)) / ((k1 - k3) * (k1 - k3))))) :=
    (tendsto_const_nhds.mul hx).mul hfrac
  have hguard : ¬(dose ≤ 0 ∨ d ≤ 0) := by
    push_neg
    exact ⟨hdose, hd⟩
  have hlim : dose * d * k1 * k1 * ((D + Real.exp (-k3 * t)) / ((k1 - k3) * (k1 - k3)))
      = e2_curve_3c t dose d k1 k1 k3 := by
    unfold e2_curve_3c
    rw [if_neg (not_lt.2 ht), if_neg hguard,
      if_neg (fun hc : k1 = k1 ∧ k1 = k3 => h13 hc.2), if_pos ⟨rfl, h13⟩,
      div_div, mul_div_assoc]
    congr 1
    congr 1
    rw [hD]
    ring
  have hEq : ∀ x ∈ s, e2_curve_3c t dose d k1 x k3
      = dose * d * k1 * x
        * ((slope (fun y : ℝ => Real.exp (-y * t) * (k1 - k3)
            - Real.exp (-k1 * t) * (y - k3)) k1 x + Real.exp (-k3 * t))
          / ((k1 - k3) * (x - k3))) := by
    intro x hx
    obtain ⟨hx1, hx3⟩ := hx
    have nx1 : x - k1 ≠ 0 := sub_ne_zero.mpr hx1
    have n1x : k1 - x ≠ 0 := sub_ne_zero.mpr hx1.symm
    have nx3 : x - k3 ≠ 0 := sub_ne_zero.mpr hx3
    unfold e2_curve_3c
    rw [if_neg (not_lt.2 ht), if_neg hguard,
      if_neg (fun hc : k1 = x ∧ x = k3 => hx1 hc.1.symm),
      if_neg (fun hc : k1 = x ∧ x ≠ k3 => hx1 hc.1.symm),
      if_neg (fun hc : k1 ≠ x ∧ k1 = k3 => h13 hc.2),
      if_neg (fun hc : k1 ≠ x ∧ x = k3 => hx3 hc.2)]
    rw [slope_def_field]
    field_simp
    ring
  rw [← hlim]
  exact Filter.Tendsto.congr' (eventuallyEq_nhdsWithin_of_eqOn
    (fun x hx => (hEq x hx).symm)) hG

/-- C8 witness: the limit statement at a concrete parameter set. -/
theorem claim_C8_witness :
    Filter.Tendsto (fun k2 => e2_curve_3c 0 1 1 1 k2 2)
      (𝓝[{x : ℝ | x ≠ 1 ∧ x ≠ 2}] 1) (𝓝 (e2_curve_3c 0 1 1 1 1 2)) :=
  claim_C8 0 1 1 1 2 (by norm_num) (by norm_num) (by norm_num) (by norm_num)

/- ── Non-negativity of the NNLS output (C4) ─────────────────────────────── -/

lemma getD_set_or (l : List ℝ) (j : ℕ) (v : ℝ) (i : ℕ) :
    (l.set j v).getD i 0 = v ∨ (l.set j v).getD i 0 = l.getD i 0 := by
  rw [List.getD_eq_getElem?_getD, List.getD_eq_getElem?_getD, List.getElem?_set]
  split_ifs with h1 h2
  · left
    rfl
  · right
    rw [List.getElem?_eq_none (by omega : l.length ≤ i)]
  · right
    rfl

lemma set_getD_nonneg (x : List ℝ) (j : ℕ) (v : ℝ)
    (hx : ∀ i : ℕ, 0 ≤ x.getD i 0) (hv : 0 ≤ v) (i : ℕ) :
    0 ≤ (x.set j v).getD i 0 := by
  rcases getD_set_or x j v i with h | h <;> rw [h]
  · exact hv
  · exact hx i

lemma foldl_preserve {α β : Type} (P : β → Prop) (f : β → α → β)
    (hf : ∀ b a, P b → P (f b a)) :
    ∀ (l : List α) (b : β), P b → P (l.foldl f b)
  | [], _, hb => hb
  | a :: l, b, hb => foldl_preserve P f hf l (f b a) (hf b a hb)

lemma nnlsAlphaStep_preserve (alpha : ℝ) (acc : List ℝ × List Bool) (p : ℕ × ℝ)
    (hx : ∀ i : ℕ, 0 ≤ acc.1.getD i 0) :
    ∀ i : ℕ, 0 ≤ (nnlsAlphaStep alpha acc p).1.getD i 0 := by
  unfold nnlsAlphaStep
  dsimp only
  split_ifs with hc
  · exact set_getD_nonneg acc.1 p.1 0 hx le_rfl
  · refine set_getD_nonneg acc.1 p.1 _ hx ?_
    have h12 : (0 : ℝ) < 1e-12 := by norm_num
    linarith [not_le.1 hc]

lemma foldl_set_nonneg :
    ∀ (pairs : List (ℕ × ℝ)), (∀ p ∈ pairs, 0 ≤ p.2) →
      ∀ (x : List ℝ), (∀ i : ℕ, 0 ≤ x.getD i 0) →
      ∀ i : ℕ, 0 ≤ (pairs.foldl (fun xa p => xa.set p.1 p.2) x).getD i 0
  | [], _, _, hx, i => hx i
  | p :: ps, hp, x, hx, i => by
    rw [List.foldl_cons]
    exact foldl_set_nonneg ps (fun q hq => hp q (List.mem_cons_of_mem p hq))
      (x.set p.1 p.2)
      (set_getD_nonneg x p.1 p.2 hx (hp p (List.mem_cons_self p ps))) i

lemma nnlsInner_nonneg (columns : List (List ℝ)) (b : List ℝ) (n k : ℕ) :
    ∀ (fuel : ℕ) (x : List ℝ) (free : List Bool),
      (∀ i : ℕ, 0 ≤ x.getD i 0) →
      ∀ i : ℕ, 0 ≤ (nnlsInner columns b n k fuel x free).1.getD i 0 := by
  intro fuel
  induction fuel with
  | zero =>
    intro x free hx i
    rw [nnlsInner]
    exact hx i
  | succ fuel ih =>
    intro x free hx i
    rw [nnlsInner]
    dsimp only
    split
    · exact hx i
    · split_ifs with hall
      · refine foldl_set_nonneg _ ?_ x hx i
        rintro ⟨j, v⟩ hjv
        exact hall v (List.of_mem_zip hjv).2
      · exact ih _ _
          (fun j => foldl_preserve
            (fun (xf : List ℝ × List Bool) => ∀ i : ℕ, 0 ≤ xf.1.getD i 0)
            (nnlsAlphaStep _) (fun b' a' hb' => nnlsAlphaStep_preserve _ b' a' hb')
            _ (x, free) hx j) i

lemma nnlsOuter_nonneg (columns : List (List ℝ)) (b : List ℝ) (n k : ℕ) :
    ∀ (fuel : ℕ) (x : List ℝ) (free : List Bool),
      (∀ i : ℕ, 0 ≤ x.getD i 0) →
      ∀ i : ℕ, 0 ≤ (nnlsOuter columns b n k fuel x free).getD i 0 := by
  intro fuel
  induction fuel with
  | zero =>
    intro x free hx i
    rw [nnlsOuter]
    exact hx i
  | succ fuel ih =>
    intro x free hx i
    rw [nnlsOuter]
    dsimp only
    split
    · exact hx i
    · exact ih _ _
        (fun j => nnlsInner_nonneg columns b n k (3 * k + 1) x _ hx j) i

lemma getD_replicate_zero (k i : ℕ) : (List.replicate k (0 : ℝ)).getD i 0 = 0 := by
  rw [List.getD_eq_getElem?_getD, List.getElem?_replicate]
  split_ifs <;> rfl

/-- C4: the vector returned by the NNLS routine `_nnls` is component-wise
non-negative, for every list of column vectors and every target vector
(positions beyond the vector's length read as the default 0). -/
theorem claim_C4 (columns : List (List ℝ)) (b : List ℝ) (i : ℕ) :
    0 ≤ (_nnls columns b).getD i 0 := by
  unfold _nnls
  dsimp only
  split_ifs with hk
  · simp
  · exact nnlsOuter_nonneg columns b _ _ _ _ _
      (fun j => le_of_eq (getD_replicate_zero _ j).symm) i

/- ── The greedy cycle-fit solver (C7) ───────────────────────────────────── -/

lemma bestCandidate_snd_le (candidates : List (ℝ × ℝ × List ℝ)) (target : List ℝ)
    (n_days : ℕ) (selected : List ℕ) (prev_mse : ℝ) :
    (bestCandidate candidates target n_days selected prev_mse).2 ≤ prev_mse := by
  unfold bestCandidate
  refine foldl_preserve (fun (acc : Option ℕ × ℝ) => acc.2 ≤ prev_mse) _ ?_ _ _ le_rfl
  intro acc ci hacc
  dsimp only
  split_ifs with h1 h2
  · exact hacc
  · exact le_trans (le_of_lt h2) hacc
  · exact hacc

lemma greedySelect_snd_le (candidates : List (ℝ × ℝ × List ℝ)) (target : List ℝ)
    (n_days : ℕ) :
    ∀ (steps step : ℕ) (selected : List ℕ) (prev_mse : ℝ),
      (greedySelect candidates target n_days steps step selected prev_mse).2 ≤ prev_mse := by
  intro steps
  induction steps with
  | zero =>
    intro step selected prev_mse
    rw [greedySelect]
  | succ steps ih =>
    intro step selected prev_mse
    rw [greedySelect]
    split
    · exact le_rfl
    · rename_i ci best_mse heq
      have hle : best_mse ≤ prev_mse := by
        have h := bestCandidate_snd_le candidates target n_days selected prev_mse
        rw [heq] at h
        exact h
      split_ifs with hbreak
      · exact le_rfl
      · exact le_trans (ih (step + 1) (selected ++ [ci]) best_mse) hle

lemma pyRound_nonneg (x : ℝ) (hx : 0 ≤ x) : 0 ≤ pyRound x := by
  unfold pyRound
  have h : (0 : ℤ) ≤ round x := by
    rw [round_eq]
    exact Int.floor_nonneg.2 (by linarith)
  exact_mod_cast h

lemma pyRound2_nonneg (x : ℝ) (hx : 0 ≤ x) : 0 ≤ pyRound2 x := by
  unfold pyRound2
  exact div_nonneg (pyRound_nonneg _ (by positivity)) (by norm_num)

/-- C7, amended: the greedy loop of the cycle-fit solver never ends with a
larger unrounded fitted MSE than it starts from (every accepted step's MSE is
bounded by the previous one, so the accepted sequence, starting from the
baseline mean-square of the raw target curve, is monotonically
non-increasing); the reported `residual_rms` is non-negative; and it equals 0
whenever the rounded-dose fitted curve matches the target exactly.  (Being
the RMS rounded to two decimals, it can also be 0 for a non-exact fit whose
RMS lies below the rounding threshold — see the counterexample.) -/
theorem claim_C7 :
    (∀ (candidates : List (ℝ × ℝ × List ℝ)) (target : List ℝ)
        (n_days steps step : ℕ) (selected : List ℕ) (prev_mse : ℝ),
      (greedySelect candidates target n_days steps step selected prev_mse).2 ≤ prev_mse)
    ∧ (∀ (target curve : List ℝ) (n_days : ℕ), 0 ≤ residualRmsOf target curve n_days)
    ∧ (∀ (target : List ℝ) (n_days : ℕ), residualRmsOf target target n_days = 0) := by
  refine ⟨?_, ?_, ?_⟩
  · intro candidates target n_days steps step selected prev_mse
    exact greedySelect_snd_le candidates target n_days steps step selected prev_mse
  · intro target curve n_days
    exact pyRound2_nonneg _ (Real.sqrt_nonneg _)
  · intro target n_days
    unfold residualRmsOf
    have h0 : ((List.range n_days).foldl
        (fun acc i => acc + (target.getD i 0 - target.getD i 0) ^ 2) 0) = (0 : ℝ) := by
      rw [foldl_add_generic]
      simp
    rw [h0, zero_div, Real.sqrt_zero]
    simp [pyRound2, pyRound]

lemma exp_two_gt : (7.389056089 : ℝ) < Real.exp 2 := by
  have h1 := Real.exp_one_gt_d9
  have he : Real.exp 2 = Real.exp 1 * Real.exp 1 := by
    rw [← Real.exp_add]
    norm_num
  nlinarith [h1]

lemma exp_two_lt : Real.exp 2 < (7.389056105 : ℝ) := by
  have h2 := Real.exp_one_lt_d9
  have h0 := Real.exp_pos 1
  have he : Real.exp 2 = Real.exp 1 * Real.exp 1 := by
    rw [← Real.exp_add]
    norm_num
  nlinarith [h2, h0]

lemma exp_four_gt : (54.598149 : ℝ) < Real.exp 4 := by
  have h := exp_two_gt
  have he : Real.exp 4 = Real.exp 2 * Real.exp 2 := by
    rw [← Real.exp_add]
    norm_num
  nlinarith [h]

lemma exp_four_lt : Real.exp 4 < (54.598151 : ℝ) := by
  have h := exp_two_lt
  have h0 := Real.exp_pos 2
  have he : Real.exp 4 = Real.exp 2 * Real.exp 2 := by
    rw [← Real.exp_add]
    norm_num
  nlinarith [h, h0]

lemma exp_six_gt : (403.42877 : ℝ) < Real.exp 6 := by
  have h2 := exp_two_gt
  have h4 := exp_four_gt
  have he : Real.exp 6 = Real.exp 2 * Real.exp 4 := by
    rw [← Real.exp_add]
    norm_num
  nlinarith [h2, h4]

lemma exp_six_lt : Real.exp 6 < (403.42881 : ℝ) := by
  have h2 := exp_two_lt
  have h4 := exp_four_lt
  have p2 := Real.exp_pos 2
  have p4 := Real.exp_pos 4
  have he : Real.exp 6 = Real.exp 2 * Real.exp 4 := by
    rw [← Real.exp_add]
    norm_num
  nlinarith [h2, h4, p2, p4]

lemma expm2_bounds : (0.13533528 : ℝ) < Real.exp (-2) ∧ Real.exp (-2) < 0.13533529 := by
  have hpos := Real.exp_pos (2 : ℝ)
  rw [Real.exp_neg]
  constructor
  · rw [inv_eq_one_div, lt_div_iff₀ hpos]
    linarith [exp_two_lt]
  · rw [inv_eq_one_div, div_lt_iff₀ hpos]
    linarith [exp_two_gt]

lemma expm4_bounds : (0.01831563 : ℝ) < Real.exp (-4) ∧ Real.exp (-4) < 0.01831565 := by
  have hpos := Real.exp_pos (4 : ℝ)
  rw [Real.exp_neg]
  constructor
  · rw [inv_eq_one_div, lt_div_iff₀ hpos]
    linarith [exp_four_lt]
  · rw [inv_eq_one_div, div_lt_iff₀ hpos]
    linarith [exp_four_gt]

lemma expm6_bounds : (0.00247875 : ℝ) < Real.exp (-6) ∧ Real.exp (-6) < 0.00247876 := by
  have hpos := Real.exp_pos (6 : ℝ)
  rw [Real.exp_neg]
  constructor
  · rw [inv_eq_one_div, lt_div_iff₀ hpos]
    linarith [exp_six_lt]
  · rw [inv_eq_one_div, div_lt_iff₀ hpos]
    linarith [exp_six_gt]

lemma ss_val_bounds :
    (0.97349 : ℝ) < _ss_unit_3c 0 2 8 1 2 3 ∧ _ss_unit_3c 0 2 8 1 2 3 < 0.97352 := by
  obtain ⟨hA1, hA2⟩ := expm2_bounds
  obtain ⟨hB1, hB2⟩ := expm4_bounds
  obtain ⟨hC1, hC2⟩ := expm6_bounds
  have hne2 : 1 - Real.exp ((-1 : ℝ) * 2) ≠ 0 := by
    have h : Real.exp ((-1 : ℝ) * 2) = Real.exp (-2) := by norm_num
    rw [h]
    linarith
  have hne4 : 1 - Real.exp ((-2 : ℝ) * 2) ≠ 0 := by
    have h : Real.exp ((-2 : ℝ) * 2) = Real.exp (-4) := by norm_num
    rw [h]
    linarith
  have hne6 : 1 - Real.exp ((-3 : ℝ) * 2) ≠ 0 := by
    have h : Real.exp ((-3 : ℝ) * 2) = Real.exp (-6) := by norm_num
    rw [h]
    linarith
  have hcond : ¬(1 - Real.exp ((-1 : ℝ) * 2) = 0 ∨ 1 - Real.exp ((-2 : ℝ) * 2) = 0
      ∨ 1 - Real.exp ((-3 : ℝ) * 2) = 0 ∨ (1 : ℝ) - 2 = 0 ∨ (1 : ℝ) - 3 = 0
      ∨ (2 : ℝ) - 3 = 0) := by
    simp only [not_or]
    exact ⟨hne2, hne4, hne6, by norm_num, by norm_num, by norm_num⟩
  have hval : _ss_unit_3c 0 2 8 1 2 3
      = max 0 ((8 : ℝ) * 1 * 2 *
        (1 / (1 - Real.exp (-2)) / (1 - 2) / (1 - 3)
          - 1 / (1 - Real.exp (-4)) / (1 - 2) / (2 - 3)
          + 1 / (1 - Real.exp (-6)) / (1 - 3) / (2 - 3))) := by
    rw [_ss_unit_3c, if_neg (by norm_num), if_neg hcond]
    rw [show ((-1 : ℝ) * 0) = 0 by norm_num, show ((-2 : ℝ) * 0) = 0 by norm_num,
      show ((-3 : ℝ) * 0) = 0 by norm_num, show ((-1 : ℝ) * 2) = -2 by norm_num,
      show ((-2 : ℝ) * 2) = -4 by norm_num, show ((-3 : ℝ) * 2) = -6 by norm_num,
      Real.exp_zero]
  rw [hval]
  have hsum : (8 : ℝ) * 1 * 2 *
      (1 / (1 - Real.exp (-2)) / (1 - 2) / (1 - 3)
        - 1 / (1 - Real.exp (-4)) / (1 - 2) / (2 - 3)
        + 1 / (1 - Real.exp (-6)) / (1 - 3) / (2 - 3))
      = 8 * (1 / (1 - Real.exp (-2))) - 16 * (1 / (1 - Real.exp (-4)))
        + 8 * (1 / (1 - Real.exp (-6))) := by
    ring
  rw [hsum]
  have hA3 : (0.86466471 : ℝ) < 1 - Real.exp (-2) := by linarith
  have hA4 : 1 - Real.exp (-2) < (0.86466472 : ℝ) := by linarith
  have hApos : (0 : ℝ) < 1 - Real.exp (-2) := by linarith
  have hg1u : 1 / (1 - Real.exp (-2)) < 1.1565178 := by
    rw [div_lt_iff₀ hApos]
    linarith
  have hg1l : (1.1565176 : ℝ) < 1 / (1 - Real.exp (-2)) := by
    rw [lt_div_iff₀ hApos]
    linarith
  have hB3 : (0.98168435 : ℝ) < 1 - Real.exp (-4) := by linarith
  have hB4 : 1 - Real.exp (-4) < (0.98168437 : ℝ) := by linarith
  have hBpos : (0 : ℝ) < 1 - Real.exp (-4) := by linarith
  have hg2u : 1 / (1 - Real.exp (-4)) < 1.018658 := by
    rw [div_lt_iff₀ hBpos]
    linarith
  have hg2l : (1.018657 : ℝ) < 1 / (1 - Real.exp (-4)) := by
    rw [lt_div_iff₀ hBpos]
    linarith
  have hC3 : (0.99752124 : ℝ) < 1 - Real.exp (-6) := by linarith
  have hC4 : 1 - Real.exp (-6) < (0.99752125 : ℝ) := by linarith
  have hCpos : (0 : ℝ) < 1 - Real.exp (-6) := by linarith
  have hg3u : 1 / (1 - Real.exp (-6)) < 1.0024850 := by
    rw [div_lt_iff₀ hCpos]
    linarith
  have hg3l : (1.0024848 : ℝ) < 1 / (1 - Real.exp (-6)) := by
    rw [lt_div_iff₀ hCpos]
    linarith
  have hVl : (0.97349 : ℝ) < 8 * (1 / (1 - Real.exp (-2)))
      - 16 * (1 / (1 - Real.exp (-4))) + 8 * (1 / (1 - Real.exp (-6))) := by
    linarith
  have hVu : 8 * (1 / (1 - Real.exp (-2))) - 16 * (1 / (1 - Real.exp (-4)))
      + 8 * (1 / (1 - Real.exp (-6))) < (0.97352 : ℝ) := by
    linarith
  rw [max_eq_right (by linarith)]
  exact ⟨hVl, hVu⟩

lemma cex_curve_eval : cycleFitCurve 8 1 2 3 [⟨0.5, 2, 0, "m"⟩] 1
    = [0.5 * _ss_unit_3c 0 2 8 1 2 3] := by
  rw [cycleFitCurve]
  simp only [List.range_succ, List.range_zero, List.nil_append, List.replicate,
    List.foldl_cons, List.foldl_nil, _compute_basis_vector, List.map_cons,
    List.map_nil, List.set_cons_zero, List.getD_cons_zero, Nat.cast_zero]
  norm_num [pymod]

lemma cex_residual_zero :
    residualRmsOf [0.49] (cycleFitCurve 8 1 2 3 [⟨0.5, 2, 0, "m"⟩] 1) 1 = 0 := by
  obtain ⟨hss1, hss2⟩ := ss_val_bounds
  rw [cex_curve_eval]
  rw [residualRmsOf]
  have hfold : ((List.range 1).foldl
      (fun acc i => acc + (([0.49] : List ℝ).getD i 0
        - ([0.5 * _ss_unit_3c 0 2 8 1 2 3] : List ℝ).getD i 0) ^ 2) 0)
      = (0.49 - 0.5 * _ss_unit_3c 0 2 8 1 2 3) ^ 2 := by
    simp only [List.range_succ, List.range_zero, List.nil_append,
      List.foldl_cons, List.foldl_nil, List.getD_cons_zero, zero_add]
  rw [hfold]
  have hdiv : ((0.49 - 0.5 * _ss_unit_3c 0 2 8 1 2 3) ^ 2) / ((1 : ℕ) : ℝ)
      = (0.49 - 0.5 * _ss_unit_3c 0 2 8 1 2 3) ^ 2 := by
    norm_num
  rw [hdiv, Real.sqrt_sq (by linarith)]
  rw [pyRound2, pyRound, round_eq]
  have hfloor : ⌊(0.49 - 0.5 * _ss_unit_3c 0 2 8 1 2 3) * 100 + 1 / 2⌋ = 0 := by
    rw [Int.floor_eq_zero_iff]
    constructor
    · linarith
    · linarith
  rw [hfloor]
  norm_num

lemma cex_curve_ne : cycleFitCurve 8 1 2 3 [⟨0.5, 2, 0, "m"⟩] 1 ≠ [0.49] := by
  obtain ⟨hss1, hss2⟩ := ss_val_bounds
  rw [cex_curve_eval]
  intro h
  have h0 : 0.5 * _ss_unit_3c 0 2 8 1 2 3 = (0.49 : ℝ) := by
    simpa using h
  linarith

lemma cex_nnls_eval : _nnls [[(1 : ℝ)]] [(0.49 : ℝ)] = [0.49] := by
  rw [_nnls]
  norm_num [List.range_succ, nnlsOuter, nnlsInner, dotN, _gauss_solve,
    gaussForwardAux, gaussBackAux, pivotRow, elimBelow, getM, List.range',
    List.replicate, nnlsAlphaStep]

lemma cex_finish_eval : cycleFitFinish 8 1 2 3 "m" [(2, 0, [1])] [0.49] 1 [0]
    = some ⟨[⟨0.5, 2, 0, "m"⟩],
        residualRmsOf [0.49] (cycleFitCurve 8 1 2 3 [⟨0.5, 2, 0, "m"⟩] 1) 1,
        (cycleFitCurve 8 1 2 3 [⟨0.5, 2, 0, "m"⟩] 1).map pyRound1⟩ := by
  rw [cycleFitFinish]
  dsimp only
  rw [show ([0] : List ℕ).map
      (fun si => (([(2, 0, [1])] : List (ℝ × ℝ × List ℝ)).getD si (0, 0, [])).2.2)
      = [[(1 : ℝ)]] from rfl]
  rw [cex_nnls_eval]
  have hsch : cycleFitSchedules "m" [(2, 0, [1])] [0] [0.49]
      = [⟨0.5, 2, 0, "m"⟩] := by
    rw [cycleFitSchedules]
    norm_num [roundHalfUnit, pyRound, round_eq]
  rw [hsch]

/-- C7 counterexample: the reported `residual_rms` is the RMS rounded to two
decimals, so it can be exactly 0 while the rounded-dose fitted curve differs
from the target: on the concrete parameters `(d, k1, k2, k3) = (8, 1, 2, 3)`,
one candidate of interval 2 and phase 0, the one-day target `[0.49]` and the
selected index list `[0]`, the finishing stage returns a result whose
reported residual is 0 while its rounded-dose fitted curve is not `[0.49]`
(the curve's sole entry lies strictly between 0.486 and 0.487). -/
theorem claim_C7_counterexample :
    ∃ r : CycleFitResult,
      cycleFitFinish 8 1 2 3 "m" [(2, 0, [1])] [0.49] 1 [0] = some r
      ∧ r.residual_rms = 0
      ∧ cycleFitCurve 8 1 2 3 r.schedules 1 ≠ [0.49] :=
  ⟨_, cex_finish_eval, cex_residual_zero, cex_curve_ne⟩

end Estrannaise
